import Mathlib

/-!
# Verification of the `rcpp_whisper.cpp` binding layer

A shallow embedding, in Lean 4, of the R-facing binding layer of
`audio.whisper` (`src/rcpp_whisper.cpp`).  The binding validates WAV audio,
converts PCM data to normalized float buffers, translates caller options to
the engine configuration, invokes the engine, and assembles segment/token
tables.  The engine itself (`whisper.h`) is opaque: it is modelled as an
oracle record (`Engine`) supplying the handful of C API functions the
binding calls.

Numeric conventions of the embedding:
* `float`/`double` sample values, probabilities and energies are modelled
  as `ℚ` (exact arithmetic idealization of the floating-point code);
* engine ticks (`int64_t`, always non-negative in the engine's output) are
  modelled as `Nat`;
* `int32_t` option fields are modelled as `Int`.
-/

/-- Width of the engine's required sample rate, `WHISPER_SAMPLE_RATE` from
`whisper.h` (16 kHz). -/
def WHISPER_SAMPLE_RATE : Nat := 16000

/-- The `%02d` formatting of a non-negative value: zero-pad to at least two
digits (wider values print all their digits, as `snprintf` does). -/
def pad2 (n : Nat) : String :=
  if n < 10 then "0" ++ toString n else toString n

/-- The `%03d` formatting of a non-negative value: zero-pad to at least three
digits. -/
def pad3 (n : Nat) : String :=
  if n < 10 then "00" ++ toString n
  else if n < 100 then "0" ++ toString n
  else toString n

/-- The function `to_timestamp` (rcpp_whisper.cpp lines 25-38): converts a tick count
`t` (1 tick = 10 ms) to a `HH:MM:SS.mmm` string (`HH:MM:SS,mmm` when
`comma` is set), via `msec = t * 10` and successive division/remainder. -/
def to_timestamp (t : Nat) (comma : Bool) : String :=
  let msec := t * 10
  let hr := msec / (1000 * 60 * 60)
  let msec1 := msec - hr * (1000 * 60 * 60)
  let min := msec1 / (1000 * 60)
  let msec2 := msec1 - min * (1000 * 60)
  let sec := msec2 / 1000
  let msec3 := msec2 - sec * 1000
  pad2 hr ++ ":" ++ pad2 min ++ ":" ++ pad2 sec ++
    (if comma then "," else ".") ++ pad3 msec3

/-- The function `timestamp_to_sample` (lines 40-42): clamp `t*WHISPER_SAMPLE_RATE/100`
into `[0, n_samples-1]`.  (On `Nat` the `max 0` is the identity and
`n_samples - 1` is truncated subtraction; for `n_samples = 0` both the C
code and this definition yield index 0.) -/
def timestamp_to_sample (t : Nat) (n_samples : Nat) : Nat :=
  max 0 (min (n_samples - 1) (t * WHISPER_SAMPLE_RATE / 100))

/-- The palette `k_colors` (lines 18-21): the 10-entry terminal color palette, lowest
is red, middle yellow, highest green. -/
def k_colors : List String :=
  ["\x1b[38;5;196m", "\x1b[38;5;202m", "\x1b[38;5;208m", "\x1b[38;5;214m",
   "\x1b[38;5;220m", "\x1b[38;5;226m", "\x1b[38;5;190m", "\x1b[38;5;154m",
   "\x1b[38;5;118m", "\x1b[38;5;82m"]

/-- The palette index computed at lines 116/170:
`max(0, min((int) k_colors.size(), (int)(pow(p,3)*k_colors.size())))`.
The C `(int)` cast truncates toward zero; on the probability domain
`p ≥ 0` that is the floor. -/
def color_index (p : ℚ) : Int :=
  max 0 (min (k_colors.length : Int) (Int.floor (p ^ 3 * (k_colors.length : ℚ))))

/-- Energy of one channel over the sample index range `[is0, is1)`: the
body of the accumulation loop at lines 141-144, per channel (out-of-range
reads modelled by `getD _ 0`; the C loop never reads out of range when
`is0`,`is1` come from `timestamp_to_sample`). -/
def diarize_energy (ch : List ℚ) (is0 is1 : Nat) : ℚ :=
  ((List.range' is0 (is1 - is0) 1).map (fun j => |ch.getD j 0|)).sum

/-- The speaker label computed per segment at lines 130-155: empty unless
diarization is on and exactly two channel buffers are present; otherwise
compare per-channel energies over the segment's sample span against the
1.1 ratio. -/
def segment_speaker (diarize : Bool) (pcmf32s : List (List ℚ))
    (t0 t1 : Nat) : String :=
  if diarize = true ∧ pcmf32s.length = 2 then
    let n_samples := (pcmf32s.getD 0 []).length
    let is0 := timestamp_to_sample t0 n_samples
    let is1 := timestamp_to_sample t1 n_samples
    let energy0 := diarize_energy (pcmf32s.getD 0 []) is0 is1
    let energy1 := diarize_energy (pcmf32s.getD 1 []) is0 is1
    if energy0 > 11/10 * energy1 then "(speaker 0)"
    else if energy1 > 11/10 * energy0 then "(speaker 1)"
    else "(speaker ?)"
  else ""

/-- The caller-option record `whisper_params` (lines 55-81).  `float`
fields are `ℚ`, `int32_t` fields are `Int`. -/
structure whisper_params where
  n_threads : Int
  n_processors : Int
  offset_t_ms : Int
  offset_n : Int
  duration_ms : Int
  max_context : Int
  max_len : Int
  word_thold : ℚ
  speed_up : Bool
  translate : Bool
  diarize : Bool
  output_txt : Bool
  output_vtt : Bool
  output_srt : Bool
  output_wts : Bool
  print_special : Bool
  print_colors : Bool
  no_timestamps : Bool
  language : String
  model : String
  fname_inp : List String

/-- Default values of `whisper_params` (lines 56-80).  The default thread
count depends on `std::thread::hardware_concurrency()`, passed in as
`hardware_concurrency`. -/
def whisper_params_default (hardware_concurrency : Int) : whisper_params :=
  { n_threads := min 4 hardware_concurrency
    n_processors := 1
    offset_t_ms := 0
    offset_n := 0
    duration_ms := 0
    max_context := -1
    max_len := 0
    word_thold := 1/100
    speed_up := false
    translate := false
    diarize := false
    output_txt := false
    output_vtt := false
    output_srt := false
    output_wts := false
    print_special := false
    print_colors := false
    no_timestamps := false
    language := "en"
    model := "models/ggml-base.en.bin"
    fname_inp := [] }

/-- One decoded token as exposed by the engine result accessors
(`whisper_full_get_token_id/_text/_p/_data`): id, text, probability and
per-token tick timestamps. -/
structure TokenData where
  id : Int
  text : String
  p : ℚ
  t0 : Nat
  t1 : Nat
deriving DecidableEq

/-- One decoded segment as exposed by the engine result accessors
(`whisper_full_get_segment_text/_t0/_t1`, `whisper_full_n_tokens`). -/
structure Seg where
  text : String
  t0 : Nat
  t1 : Nat
  tokens : List TokenData
deriving DecidableEq

/-- The subset of the engine configuration struct `whisper_full_params`
assigned by the binding at lines 321-339.  The callback-pointer fields
(lines 344-359) carry no data relevant to the claims and are omitted. -/
structure whisper_full_params where
  print_realtime : Bool
  print_progress : Bool
  print_timestamps : Bool
  print_special : Bool
  translate : Bool
  language : String
  n_threads : Int
  n_max_text_ctx : Int
  offset_ms : Int
  duration_ms : Int
  token_timestamps : Bool
  thold_pt : ℚ
  max_len : Int
  speed_up : Bool

/-- The configuration translation at lines 321-339: start from the
engine-provided defaults and assign each field in source order.  Lines
334-335 assign `token_timestamps` twice: first from
`output_wts || max_len > 0`, then (overwriting) from the caller-supplied
`token_timestamps` argument. -/
def make_wparams (defaults : whisper_full_params) (params : whisper_params)
    (trace : Bool) (token_timestamps : Bool) : whisper_full_params :=
  let w := defaults
  let w := { w with print_realtime := trace }
  let w := { w with print_progress := false }
  let w := { w with print_timestamps := !params.no_timestamps }
  let w := { w with print_special := params.print_special }
  let w := { w with translate := params.translate }
  let w := { w with language := params.language }
  let w := { w with n_threads := params.n_threads }
  let w := { w with n_max_text_ctx :=
    if params.max_context ≥ 0 then params.max_context else w.n_max_text_ctx }
  let w := { w with offset_ms := params.offset_t_ms }
  let w := { w with duration_ms := params.duration_ms }
  let w := { w with token_timestamps := params.output_wts || decide (params.max_len > 0) }
  let w := { w with token_timestamps := token_timestamps }
  let w := { w with thold_pt := params.word_thold }
  let w := { w with max_len :=
    if params.output_wts = true ∧ params.max_len = 0 then 60 else params.max_len }
  let w := { w with speed_up := params.speed_up }
  w

/-- The WAV header and 16-bit PCM payload as produced by `drwav`
(lines 245-272): channel count, sample rate, bit depth, frame count and
the interleaved `int16_t` samples read by `drwav_read_pcm_frames_s16`. -/
structure drwav where
  channels : Nat
  sampleRate : Nat
  bitsPerSample : Nat
  totalPCMFrameCount : Nat
  samples : List Int
deriving DecidableEq

/-- The WAV validation chain at lines 248-266, in source order: failure to
open, channel count, diarization precondition, sample rate, bit depth.
`none` models `drwav_init_file` returning false.  Each `Rcpp::stop`
message is the C format string with the file name appended. -/
def wav_validate (params : whisper_params) (wav : Option drwav)
    (fname_inp : String) : Except String drwav :=
  match wav with
  | none => .error ("Failed to open the file as WAV file: " ++ fname_inp)
  | some wav =>
    if wav.channels ≠ 1 ∧ wav.channels ≠ 2 then
      .error ("WAV file must be mono or stereo: " ++ fname_inp)
    else if params.diarize = true ∧ wav.channels ≠ 2 ∧ params.no_timestamps = false then
      .error ("WAV file must be stereo for diarization and timestamps have to be enabled: " ++ fname_inp)
    else if wav.sampleRate ≠ WHISPER_SAMPLE_RATE then
      .error ("WAV file must be 16 kHz: " ++ fname_inp)
    else if wav.bitsPerSample ≠ 16 then
      .error ("WAV file must be 16 bit: " ++ fname_inp)
    else .ok wav

/-- The mono float conversion at lines 276-285: `pcm16[i]/32768` for mono
input, `(pcm16[2i]+pcm16[2i+1])/65536` for stereo (the `int16_t` sum is
computed at `int` width, so it cannot overflow). -/
def to_mono (channels : Nat) (n : Nat) (pcm16 : List Int) : List ℚ :=
  if channels = 1 then
    (List.range n).map (fun i => (pcm16.getD i 0 : ℚ) / 32768)
  else
    (List.range n).map (fun i =>
      ((pcm16.getD (2*i) 0 + pcm16.getD (2*i+1) 0 : Int) : ℚ) / 65536)

/-- The stereo float conversion at lines 288-296: two parallel buffers of
`n` samples, `pcm16[2i]/32768` and `pcm16[2i+1]/32768`. -/
def to_stereo (n : Nat) (pcm16 : List Int) : List (List ℚ) :=
  [(List.range n).map (fun i => (pcm16.getD (2*i) 0 : ℚ) / 32768),
   (List.range n).map (fun i => (pcm16.getD (2*i+1) 0 : ℚ) / 32768)]

/-- Lines 287-297: the stereo per-channel buffers are populated only when
`params.diarize` is set; otherwise `pcmf32s` stays empty. -/
def pcmf32s_of (params : whisper_params) (n : Nat) (pcm16 : List Int) :
    List (List ℚ) :=
  if params.diarize = true then to_stereo n pcm16 else []

/-- The language fallback at lines 308-315: when the model is not
multilingual and the caller asked for a non-default language or for
translation, force `language = "en"`, `translate = false` and emit a
non-fatal warning (second component `true`). -/
def adjust_lang (is_multilingual : Bool) (params : whisper_params) :
    whisper_params × Bool :=
  if is_multilingual = false ∧ (params.language ≠ "en" ∨ params.translate = true) then
    ({ params with language := "en", translate := false }, true)
  else (params, false)

/-- The five parallel column vectors built by the token loop at lines
374-409 (`token_segment_nr`, `token_segment_text`,
`token_segment_probability`, `token_segment_from`, `token_segment_to`). -/
structure TokenColumns where
  segment : List Nat
  token : List String
  token_prob : List ℚ
  token_from : List String
  token_to : List String
deriving DecidableEq

/-- The empty column vectors, before the loop runs. -/
def TokenColumns.empty : TokenColumns :=
  { segment := [], token := [], token_prob := [], token_from := [], token_to := [] }

/-- The inner token loop at lines 388-408 for segment number `segIdx`
(0-based): tokens with `id ≥ eot` are skipped (`continue`) unless
`print_special` is set; otherwise the row is pushed onto each column, the
`from`/`to` columns only when `token_timestamps` is set. -/
def push_tokens (print_special : Bool) (eot : Int) (token_timestamps : Bool)
    (segIdx : Nat) : List TokenData → TokenColumns → TokenColumns
  | [], acc => acc
  | tk :: rest, acc =>
    if print_special = false ∧ tk.id ≥ eot then
      push_tokens print_special eot token_timestamps segIdx rest acc
    else
      let acc := { acc with
        segment := acc.segment ++ [segIdx + 1],
        token := acc.token ++ [tk.text],
        token_prob := acc.token_prob ++ [tk.p] }
      let acc := if token_timestamps = true then
        { acc with
          token_from := acc.token_from ++ [to_timestamp tk.t0 false],
          token_to := acc.token_to ++ [to_timestamp tk.t1 false] }
        else acc
      push_tokens print_special eot token_timestamps segIdx rest acc

/-- The outer segment loop of lines 379-409, restricted to the token
columns: run `push_tokens` over each segment in order. -/
def token_cols_go (print_special : Bool) (eot : Int) (token_timestamps : Bool) :
    List Seg → Nat → TokenColumns → TokenColumns
  | [], _, acc => acc
  | s :: rest, i, acc =>
    token_cols_go print_special eot token_timestamps rest (i + 1)
      (push_tokens print_special eot token_timestamps i s.tokens acc)

/-- The token column vectors produced by one invocation, for the engine
result `segs`. -/
def token_cols (print_special : Bool) (eot : Int) (token_timestamps : Bool)
    (segs : List Seg) : TokenColumns :=
  token_cols_go print_special eot token_timestamps segs 0 TokenColumns.empty

/-- The `tokens` data frame built at lines 410-425: with `token_from` and
`token_to` columns when `token_timestamps` is set, without them
otherwise. -/
inductive TokenTable where
  | withTs (segment : List Nat) (token : List String) (token_prob : List ℚ)
      (token_from : List String) (token_to : List String) : TokenTable
  | noTs (segment : List Nat) (token : List String) (token_prob : List ℚ) :
      TokenTable
deriving DecidableEq

/-- Lines 410-425: choose the data-frame shape from `token_timestamps`. -/
def tokens_table (token_timestamps : Bool) (cols : TokenColumns) : TokenTable :=
  if token_timestamps = true then
    .withTs cols.segment cols.token cols.token_prob cols.token_from cols.token_to
  else
    .noTs cols.segment cols.token cols.token_prob

/-- The engine oracle: the `whisper.h` C API functions the binding calls,
plus the result state the accessors expose after a successful
`whisper_full_parallel`.  `full_parallel_ret` is the decode return code
and `result` the segment list subsequently readable through the
accessors; both may depend on the PCM buffer and configuration. -/
structure Engine where
  lang_id : String → Int
  is_multilingual : Bool
  token_eot : Int
  defaults : whisper_full_params
  full_parallel_ret : List ℚ → whisper_full_params → Int → Int
  result : List ℚ → whisper_full_params → List Seg

/-- The arguments of the exported entry point `whisper_encode`
(lines 209-211), with the C++ default values spelled out by callers. -/
structure EncodeArgs where
  path : String
  language : String
  token_timestamps : Bool
  translate : Bool
  print_special : Bool
  duration : Int
  offset : Int
  trace : Bool
  n_threads : Int
  n_processors : Int

/-- Lines 212-221: build the `whisper_params` record from the entry-point
arguments, starting from the defaults. -/
def encode_params (hardware_concurrency : Int) (a : EncodeArgs) : whisper_params :=
  { whisper_params_default hardware_concurrency with
    language := a.language
    translate := a.translate
    print_special := a.print_special
    duration_ms := a.duration
    offset_t_ms := a.offset
    fname_inp := (whisper_params_default hardware_concurrency).fname_inp ++ [a.path]
    n_threads := a.n_threads
    n_processors := a.n_processors }

/-- The value returned to R by `whisper_encode` (lines 428-443), plus a
`warned` flag modelling the `Rcpp::warning` side channel of line 313. -/
structure EncodeOutput where
  n_segments : Nat
  data_segment : List Nat
  data_from : List String
  data_to : List String
  data_text : List String
  tokens : TokenTable
  params_audio : String
  params_language : String
  params_offset : Int
  params_duration : Int
  params_translate : Bool
  params_token_timestamps : Bool
  params_word_threshold : ℚ
  warned : Bool
deriving DecidableEq

/-- The exported entry point `whisper_encode` (lines 208-445): build the
option record, check the input list and the language id, validate and
decode the WAV file, apply the multilingual fallback, translate the
configuration, run the engine, and assemble the segment and token tables.
`wav` is the result of opening `a.path` with `drwav_init_file` (`none`
when that fails); `Except.error` models `Rcpp::stop`. -/
def whisper_encode (eng : Engine) (hardware_concurrency : Int)
    (a : EncodeArgs) (wav : Option drwav) : Except String EncodeOutput :=
  let params := encode_params hardware_concurrency a
  if params.fname_inp.isEmpty = true then
    .error "error: no input files specified"
  else if eng.lang_id params.language = -1 then
    .error "Unknown language"
  else
    match wav_validate params wav a.path with
    | .error e => .error e
    | .ok w =>
      let n := w.totalPCMFrameCount
      let pcmf32 := to_mono w.channels n w.samples
      let _pcmf32s := pcmf32s_of params n w.samples
      match adjust_lang eng.is_multilingual params with
      | (params, warned) =>
        let wparams := make_wparams eng.defaults params a.trace a.token_timestamps
        if eng.full_parallel_ret pcmf32 wparams params.n_processors ≠ 0 then
          .error "failed to process audio"
        else
          let segs := eng.result pcmf32 wparams
          let cols := token_cols params.print_special eng.token_eot
            a.token_timestamps segs
          .ok
            { n_segments := segs.length
              data_segment := (List.range segs.length).map (fun i => i + 1)
              data_from := segs.map (fun s => to_timestamp s.t0 false)
              data_to := segs.map (fun s => to_timestamp s.t1 false)
              data_text := segs.map (fun s => s.text)
              tokens := tokens_table a.token_timestamps cols
              params_audio := a.path
              params_language := params.language
              params_offset := a.offset
              params_duration := a.duration
              params_translate := params.translate
              params_token_timestamps := a.token_timestamps
              params_word_threshold := params.word_thold
              warned := warned }

/-- Specification-side description of the token rows (from the spec:
"unless print special tokens is enabled, tokens whose id is
greater-or-equal to the end-of-text sentinel are skipped entirely"):
the kept tokens of the segments starting at 0-based segment index `i`,
tagged with their 1-based segment number. -/
def tokens_kept_from (print_special : Bool) (eot : Int) (i : Nat) :
    List Seg → List (Nat × TokenData)
  | [] => []
  | s :: rest =>
    (s.tokens.filter (fun tk => print_special || decide (tk.id < eot))).map
        (fun tk => (i + 1, tk)) ++
      tokens_kept_from print_special eot (i + 1) rest

/-- The kept token rows of a whole result, numbered from segment 1. -/
def tokens_kept_spec (print_special : Bool) (eot : Int) (segs : List Seg) :
    List (Nat × TokenData) :=
  tokens_kept_from print_special eot 0 segs

/-- Specification-side description of the unfiltered token rows: every
token of every segment, tagged with its 1-based segment number. -/
def tokens_all_from (i : Nat) : List Seg → List (Nat × TokenData)
  | [] => []
  | s :: rest =>
    s.tokens.map (fun tk => (i + 1, tk)) ++ tokens_all_from (i + 1) rest

/-- A fixed engine configuration default record, used for concrete
instantiations of the theorems. -/
def wdef0 : whisper_full_params :=
  { print_realtime := false, print_progress := false, print_timestamps := true
    print_special := false, translate := false, language := "en"
    n_threads := 4, n_max_text_ctx := 16384, offset_ms := 0, duration_ms := 0
    token_timestamps := false, thold_pt := 1/100, max_len := 0, speed_up := false }

/-- A concrete non-multilingual engine oracle whose decode always succeeds
with an empty result, used for concrete instantiations. -/
def engNM : Engine :=
  { lang_id := fun s => if s = "en" then 0 else if s = "fr" then 1 else -1
    is_multilingual := false
    token_eot := 50256
    defaults := wdef0
    full_parallel_ret := fun _ _ _ => 0
    result := fun _ _ => [] }

/-- A concrete valid (mono, 16 kHz, 16-bit, empty) WAV header. -/
def wavOK : drwav :=
  { channels := 1, sampleRate := 16000, bitsPerSample := 16
    totalPCMFrameCount := 0, samples := [] }

/-- A concrete invalid WAV header: 3 channels. -/
def wav3ch : drwav :=
  { channels := 3, sampleRate := 16000, bitsPerSample := 16
    totalPCMFrameCount := 0, samples := [] }

/-- Concrete entry-point arguments requesting language `"fr"`. -/
def argsFr : EncodeArgs :=
  { path := "audio.wav", language := "fr", token_timestamps := false
    translate := false, print_special := false, duration := 0, offset := 0
    trace := false, n_threads := 1, n_processors := 1 }

/-- The output `whisper_encode engNM 4 argsFr (some wavOK)` produces. -/
def outFr : EncodeOutput :=
  { n_segments := 0, data_segment := [], data_from := [], data_to := []
    data_text := [], tokens := .noTs [] [] [], params_audio := "audio.wav"
    params_language := "en", params_offset := 0, params_duration := 0
    params_translate := false, params_token_timestamps := false
    params_word_threshold := 1/100, warned := true }

/-- A concrete louder-left channel pair for diarization instances. -/
def chanA : List ℚ := [1, 1]

/-- The matching quiet channel. -/
def chanB : List ℚ := [0, 0]

/-- A concrete kept (non-special) token. -/
def tokEx1 : TokenData := { id := 3, text := "hi", p := 1/2, t0 := 0, t1 := 5 }

/-- A concrete special token (id beyond the end-of-text sentinel). -/
def tokEx2 : TokenData := { id := 50257, text := "[_EOT_]", p := 1, t0 := 5, t1 := 5 }

/-- A concrete segment holding one ordinary and one special token. -/
def segEx : Seg := { text := "hi", t0 := 0, t1 := 5, tokens := [tokEx1, tokEx2] }

/-- For any `a k`, the running remainder computed by `to_timestamp`'s
subtraction steps equals the modulus. -/
theorem sub_div_mul_eq_mod (a k : Nat) : a - a / k * k = a % k := by
  have h := Nat.mod_add_div' a k
  omega

/-- C4 counterexample: the claim's third equation is false on the code:
`to_timestamp 6000` is one minute, not one hour (6000 ticks × 10 ms =
60000 ms = 60 s). -/
theorem to_timestamp_6000_not_one_hour :
    to_timestamp 6000 false ≠ "01:00:00.000" := by decide

/-- C4 (amended): `to_timestamp 0 = "00:00:00.000"`,
`to_timestamp 500 = "00:00:05.000"`, and
`to_timestamp 6000 = "00:01:00.000"`. -/
theorem to_timestamp_values :
    to_timestamp 0 false = "00:00:00.000" ∧
    to_timestamp 500 false = "00:00:05.000" ∧
    to_timestamp 6000 false = "00:01:00.000" := by decide

/-- C5: for every tick count below 100 hours, `to_timestamp` renders the
zero-padded hours, minutes, seconds and milliseconds of the duration
`t * 10` milliseconds, i.e. one tick is 10 ms. -/
theorem to_timestamp_format (t : Nat) (h : t * 10 < 100 * (1000 * 60 * 60)) :
    to_timestamp t false =
      pad2 (t * 10 / 3600000) ++ ":" ++ pad2 (t * 10 / 60000 % 60) ++ ":" ++
        pad2 (t * 10 / 1000 % 60) ++ "." ++ pad3 (t * 10 % 1000) := by
  simp only [to_timestamp]
  rw [sub_div_mul_eq_mod (t * 10) (1000 * 60 * 60)]
  rw [sub_div_mul_eq_mod (t * 10 % (1000 * 60 * 60)) (1000 * 60)]
  rw [sub_div_mul_eq_mod (t * 10 % (1000 * 60 * 60) % (1000 * 60)) 1000]
  rw [Nat.mod_mod_of_dvd (t * 10) (show (1000 * 60 : Nat) ∣ (1000 * 60 * 60) by norm_num)]
  rw [Nat.mod_mod_of_dvd (t * 10) (show (1000 : Nat) ∣ (1000 * 60) by norm_num)]
  rw [show (1000 * 60 * 60 : Nat) = (1000 * 60) * 60 by norm_num]
  rw [Nat.mod_mul_right_div_self (t * 10) (1000 * 60) 60]
  rw [show (1000 * 60 : Nat) = 1000 * 60 from rfl,
    Nat.mod_mul_right_div_self (t * 10) 1000 60]
  norm_num

/-- C5 witness at `t = 4245` (42.45 seconds). -/
theorem to_timestamp_format_witness :
    to_timestamp 4245 false = "00:00:42.450" ∧
    to_timestamp 4245 false =
      pad2 (4245 * 10 / 3600000) ++ ":" ++ pad2 (4245 * 10 / 60000 % 60) ++ ":" ++
        pad2 (4245 * 10 / 1000 % 60) ++ "." ++ pad3 (4245 * 10 % 1000) :=
  ⟨by decide, to_timestamp_format 4245 (by norm_num)⟩

/-- C8: the palette index computed from a token probability of exactly 1
equals `k_colors.size()` itself — `10`, one past the last valid index of
the 10-entry palette — so the access `k_colors[col]` is out of bounds:
the clamp uses `k_colors.size()` where the in-bounds bound is
`k_colors.size() - 1`. -/
theorem color_index_out_of_bounds :
    color_index 1 = (k_colors.length : Int) ∧
    k_colors.length = 10 ∧ ¬ color_index 1 ≤ 9 := by
  have hl : k_colors.length = 10 := rfl
  refine ⟨?_, hl, ?_⟩ <;> rw [color_index, hl] <;> norm_num

/-- C9: the `token_timestamps` value in the configuration handed to the
engine always equals the caller-supplied `token_timestamps` argument; the
intermediate assignment from `output_wts`/`max_len` (line 334) is dead. -/
theorem make_wparams_token_timestamps (defaults : whisper_full_params)
    (params : whisper_params) (trace token_timestamps : Bool) :
    (make_wparams defaults params trace token_timestamps).token_timestamps =
      token_timestamps := rfl

/-- Summing a mapped function over `List.range' s n 1` is the sum over the
interval `[s, s + n)`. -/
theorem list_range'_map_sum (f : Nat → ℚ) (s n : Nat) :
    ((List.range' s n 1).map f).sum = ∑ j in Finset.Ico s (s + n), f j := by
  induction n generalizing s with
  | zero => simp
  | succ n ih =>
    rw [List.range'_succ, List.map_cons, List.sum_cons, ih (s + 1),
      show s + (n + 1) = (s + 1) + n by omega,
      Finset.sum_eq_sum_Ico_succ_bot (show s < (s + 1) + n by omega) f]

/-- The loop-accumulated channel energy is the interval sum of absolute
sample values. -/
theorem diarize_energy_eq_sum (ch : List ℚ) (is0 is1 : Nat) :
    diarize_energy ch is0 is1 = ∑ j in Finset.Ico is0 is1, |ch.getD j 0| := by
  rw [diarize_energy, list_range'_map_sum]
  rcases le_or_lt is0 is1 with h | h
  · rw [show is0 + (is1 - is0) = is1 by omega]
  · rw [show is0 + (is1 - is0) = is0 by omega, Finset.Ico_self,
      Finset.Ico_eq_empty (show ¬ is0 < is1 by omega)]

/-- Channel energies are non-negative (sums of absolute values). -/
theorem diarize_energy_nonneg (ch : List ℚ) (is0 is1 : Nat) :
    0 ≤ diarize_energy ch is0 is1 := by
  rw [diarize_energy]
  apply List.sum_nonneg
  intro x hx
  rw [List.mem_map] at hx
  obtain ⟨j, -, rfl⟩ := hx
  exact abs_nonneg _

/-- C6: with diarization on and two equal-length channels, the speaker
label is determined by the claimed energy comparison: energies are sums
of absolute sample values over
`[clamp(t0*16000/100, 0, n-1), clamp(t1*16000/100, 0, n-1))`, and the
label is speaker 0 when channel 0 exceeds channel 1 by more than 10%,
speaker 1 symmetrically, and ambiguous otherwise. -/
theorem segment_speaker_diarization (c0 c1 : List ℚ) (t0 t1 : Nat)
    (h : c0.length = c1.length) :
    ((∑ j in Finset.Ico (min (c0.length - 1) (t0 * 16000 / 100))
          (min (c0.length - 1) (t1 * 16000 / 100)), |c0.getD j 0|) >
        11/10 * (∑ j in Finset.Ico (min (c0.length - 1) (t0 * 16000 / 100))
          (min (c0.length - 1) (t1 * 16000 / 100)), |c1.getD j 0|) →
      segment_speaker true [c0, c1] t0 t1 = "(speaker 0)") ∧
    ((∑ j in Finset.Ico (min (c0.length - 1) (t0 * 16000 / 100))
          (min (c0.length - 1) (t1 * 16000 / 100)), |c1.getD j 0|) >
        11/10 * (∑ j in Finset.Ico (min (c0.length - 1) (t0 * 16000 / 100))
          (min (c0.length - 1) (t1 * 16000 / 100)), |c0.getD j 0|) →
      segment_speaker true [c0, c1] t0 t1 = "(speaker 1)") ∧
    (¬ ((∑ j in Finset.Ico (min (c0.length - 1) (t0 * 16000 / 100))
          (min (c0.length - 1) (t1 * 16000 / 100)), |c0.getD j 0|) >
        11/10 * (∑ j in Finset.Ico (min (c0.length - 1) (t0 * 16000 / 100))
          (min (c0.length - 1) (t1 * 16000 / 100)), |c1.getD j 0|)) →
     ¬ ((∑ j in Finset.Ico (min (c0.length - 1) (t0 * 16000 / 100))
          (min (c0.length - 1) (t1 * 16000 / 100)), |c1.getD j 0|) >
        11/10 * (∑ j in Finset.Ico (min (c0.length - 1) (t0 * 16000 / 100))
          (min (c0.length - 1) (t1 * 16000 / 100)), |c0.getD j 0|)) →
      segment_speaker true [c0, c1] t0 t1 = "(speaker ?)") := by
  have hts : ∀ t : Nat, timestamp_to_sample t c0.length =
      min (c0.length - 1) (t * 16000 / 100) := by
    intro t
    rw [timestamp_to_sample, WHISPER_SAMPLE_RATE]
    omega
  have hbody : segment_speaker true [c0, c1] t0 t1 =
      (if diarize_energy c0 (timestamp_to_sample t0 c0.length)
            (timestamp_to_sample t1 c0.length) >
          11/10 * diarize_energy c1 (timestamp_to_sample t0 c0.length)
            (timestamp_to_sample t1 c0.length) then "(speaker 0)"
       else if diarize_energy c1 (timestamp_to_sample t0 c0.length)
            (timestamp_to_sample t1 c0.length) >
          11/10 * diarize_energy c0 (timestamp_to_sample t0 c0.length)
            (timestamp_to_sample t1 c0.length) then "(speaker 1)"
       else "(speaker ?)") := by
    rw [segment_speaker, if_pos ⟨rfl, rfl⟩]
    rfl
  rw [hbody, hts t0, hts t1, diarize_energy_eq_sum, diarize_energy_eq_sum]
  set e0 := ∑ j in Finset.Ico (min (c0.length - 1) (t0 * 16000 / 100))
      (min (c0.length - 1) (t1 * 16000 / 100)), |c0.getD j 0| with he0
  set e1 := ∑ j in Finset.Ico (min (c0.length - 1) (t0 * 16000 / 100))
      (min (c0.length - 1) (t1 * 16000 / 100)), |c1.getD j 0| with he1
  refine ⟨fun h0 => ?_, fun h1 => ?_, fun hn0 hn1 => ?_⟩
  · rw [if_pos h0]
  · have : ¬ e0 > 11/10 * e1 := by
      intro h0
      have hnn : (0:ℚ) ≤ e1 := by
        rw [he1, ← diarize_energy_eq_sum]
        exact diarize_energy_nonneg _ _ _
      linarith
    rw [if_neg this, if_pos h1]
  · rw [if_neg hn0, if_neg hn1]

/-- C6 witness: left channel all-loud, right channel silent over span
`[0, 1)` yields the speaker-0 label. -/
theorem segment_speaker_diarization_witness :
    chanA.length = chanB.length ∧
    segment_speaker true [chanA, chanB] 0 1 = "(speaker 0)" := by
  refine ⟨rfl, ?_⟩
  apply (segment_speaker_diarization chanA chanB 0 1 rfl).1
  have h1 : min (chanA.length - 1) (0 * 16000 / 100) = 0 := by norm_num [chanA]
  have h2 : min (chanA.length - 1) (1 * 16000 / 100) = 1 := by norm_num [chanA]
  rw [h1, h2, Nat.Ico_zero_eq_range, Finset.sum_range_one, Finset.sum_range_one]
  norm_num [chanA, chanB]

/-- C7: swapping the two channel buffers swaps the speaker-0 and
speaker-1 labels and keeps the ambiguous label. -/
theorem segment_speaker_swap (c0 c1 : List ℚ) (t0 t1 : Nat)
    (h : c0.length = c1.length) :
    (segment_speaker true [c0, c1] t0 t1 = "(speaker 0)" →
      segment_speaker true [c1, c0] t0 t1 = "(speaker 1)") ∧
    (segment_speaker true [c0, c1] t0 t1 = "(speaker 1)" →
      segment_speaker true [c1, c0] t0 t1 = "(speaker 0)") ∧
    (segment_speaker true [c0, c1] t0 t1 = "(speaker ?)" →
      segment_speaker true [c1, c0] t0 t1 = "(speaker ?)") := by
  have hbody : ∀ a b : List ℚ, segment_speaker true [a, b] t0 t1 =
      (if diarize_energy a (timestamp_to_sample t0 a.length)
            (timestamp_to_sample t1 a.length) >
          11/10 * diarize_energy b (timestamp_to_sample t0 a.length)
            (timestamp_to_sample t1 a.length) then "(speaker 0)"
       else if diarize_energy b (timestamp_to_sample t0 a.length)
            (timestamp_to_sample t1 a.length) >
          11/10 * diarize_energy a (timestamp_to_sample t0 a.length)
            (timestamp_to_sample t1 a.length) then "(speaker 1)"
       else "(speaker ?)") := by
    intro a b
    rw [segment_speaker, if_pos ⟨rfl, rfl⟩]
    rfl
  rw [hbody c0 c1, hbody c1 c0, ← h]
  have hnn0 : 0 ≤ diarize_energy c0 (timestamp_to_sample t0 c0.length)
      (timestamp_to_sample t1 c0.length) := diarize_energy_nonneg _ _ _
  have hnn1 : 0 ≤ diarize_energy c1 (timestamp_to_sample t0 c0.length)
      (timestamp_to_sample t1 c0.length) := diarize_energy_nonneg _ _ _
  by_cases h01 : diarize_energy c0 (timestamp_to_sample t0 c0.length)
      (timestamp_to_sample t1 c0.length) >
      11/10 * diarize_energy c1 (timestamp_to_sample t0 c0.length)
        (timestamp_to_sample t1 c0.length)
  · have h10 : ¬ diarize_energy c1 (timestamp_to_sample t0 c0.length)
        (timestamp_to_sample t1 c0.length) >
        11/10 * diarize_energy c0 (timestamp_to_sample t0 c0.length)
          (timestamp_to_sample t1 c0.length) := by
      intro hx
      linarith
    simp only [if_pos h01, if_neg h10]
    decide
  · by_cases h10 : diarize_energy c1 (timestamp_to_sample t0 c0.length)
        (timestamp_to_sample t1 c0.length) >
        11/10 * diarize_energy c0 (timestamp_to_sample t0 c0.length)
          (timestamp_to_sample t1 c0.length)
    · simp only [if_pos h10, if_neg h01]
      decide
    · simp only [if_neg h01, if_neg h10]
      decide

/-- C7 witness: the loud-left pair labels speaker 0, and its swap labels
speaker 1. -/
theorem segment_speaker_swap_witness :
    chanA.length = chanB.length ∧
    segment_speaker true [chanB, chanA] 0 1 = "(speaker 1)" := by
  have heval : segment_speaker true [chanA, chanB] 0 1 = "(speaker 0)" := by
    rw [segment_speaker, if_pos ⟨rfl, rfl⟩]
    norm_num [timestamp_to_sample, WHISPER_SAMPLE_RATE, diarize_energy, chanA,
      chanB, List.range']
  exact ⟨rfl, (segment_speaker_swap chanA chanB 0 1 rfl).1 heval⟩

/-- Characterization of the inner token loop: it appends, to each column,
the kept tokens' fields in order; a token is kept when `print_special` is
set or its id is below the sentinel. -/
theorem push_tokens_spec (ps : Bool) (eot : Int) (tts : Bool) (i : Nat)
    (toks : List TokenData) (acc : TokenColumns) :
    push_tokens ps eot tts i toks acc =
      { segment := acc.segment ++
          (toks.filter (fun tk => ps || decide (tk.id < eot))).map (fun _ => i + 1)
        token := acc.token ++
          (toks.filter (fun tk => ps || decide (tk.id < eot))).map (fun tk => tk.text)
        token_prob := acc.token_prob ++
          (toks.filter (fun tk => ps || decide (tk.id < eot))).map (fun tk => tk.p)
        token_from := acc.token_from ++
          (if tts = true then
            (toks.filter (fun tk => ps || decide (tk.id < eot))).map
              (fun tk => to_timestamp tk.t0 false)
           else [])
        token_to := acc.token_to ++
          (if tts = true then
            (toks.filter (fun tk => ps || decide (tk.id < eot))).map
              (fun tk => to_timestamp tk.t1 false)
           else []) } := by
  induction toks generalizing acc with
  | nil => cases tts <;> simp [push_tokens]
  | cons tk rest ih =>
    simp only [push_tokens]
    by_cases hskip : ps = false ∧ tk.id ≥ eot
    · rw [if_pos hskip, ih]
      have hf : (ps || decide (tk.id < eot)) = false := by
        obtain ⟨h1, h2⟩ := hskip
        subst h1
        simp only [Bool.false_or, decide_eq_false_iff_not]
        omega
      cases tts <;> simp [List.filter_cons, hf]
    · rw [if_neg hskip, ih]
      have hf : (ps || decide (tk.id < eot)) = true := by
        rcases Bool.eq_false_or_eq_true ps with h1 | h1
        · simp [h1]
        · subst h1
          simp only [Bool.false_or, decide_eq_true_eq]
          exact lt_of_not_ge (fun hge => hskip ⟨rfl, hge⟩)
      cases tts <;> simp [List.filter_cons, hf, List.append_assoc]

/-- Characterization of the segment loop restricted to the token columns:
starting at segment index `i`, it appends the kept rows of all segments. -/
theorem token_cols_go_spec (ps : Bool) (eot : Int) (tts : Bool)
    (segs : List Seg) (i : Nat) (acc : TokenColumns) :
    token_cols_go ps eot tts segs i acc =
      { segment := acc.segment ++
          (tokens_kept_from ps eot i segs).map (fun x => x.1)
        token := acc.token ++
          (tokens_kept_from ps eot i segs).map (fun x => x.2.text)
        token_prob := acc.token_prob ++
          (tokens_kept_from ps eot i segs).map (fun x => x.2.p)
        token_from := acc.token_from ++
          (if tts = true then
            (tokens_kept_from ps eot i segs).map (fun x => to_timestamp x.2.t0 false)
           else [])
        token_to := acc.token_to ++
          (if tts = true then
            (tokens_kept_from ps eot i segs).map (fun x => to_timestamp x.2.t1 false)
           else []) } := by
  induction segs generalizing i acc with
  | nil => cases tts <;> simp [token_cols_go, tokens_kept_from]
  | cons s rest ih =>
    simp only [token_cols_go]
    rw [push_tokens_spec, ih]
    cases tts <;>
      simp [tokens_kept_from, List.map_map, List.append_assoc, Function.comp]

/-- Every row kept with `print_special = false` has a token id strictly
below the sentinel. -/
theorem tokens_kept_from_mem (eot : Int) (i : Nat) (segs : List Seg) :
    ∀ x ∈ tokens_kept_from false eot i segs, x.2.id < eot := by
  induction segs generalizing i with
  | nil => simp [tokens_kept_from]
  | cons s rest ih =>
    intro x hx
    simp only [tokens_kept_from, List.mem_append, List.mem_map,
      List.mem_filter] at hx
    rcases hx with ⟨tk, ⟨-, htk⟩, rfl⟩ | hx
    · simpa using htk
    · exact ih (i + 1) x hx

/-- With `print_special = true` no token is filtered out. -/
theorem tokens_kept_from_all (eot : Int) (i : Nat) (segs : List Seg) :
    tokens_kept_from true eot i segs = tokens_all_from i segs := by
  induction segs generalizing i with
  | nil => rfl
  | cons s rest ih => simp [tokens_kept_from, tokens_all_from, ih]

/-- C3: the returned token table holds exactly the kept rows — with
`print_special` unset, every row's token id is below the end-of-text
sentinel (special tokens are never counted or emitted), and with it set
no token is dropped; with `token_timestamps` set the table carries
`token_from`/`token_to` columns populated from each token's own
timestamps, and without it those columns are absent. -/
theorem whisper_token_table (ps : Bool) (eot : Int) (segs : List Seg) :
    tokens_table true (token_cols ps eot true segs) =
      TokenTable.withTs ((tokens_kept_spec ps eot segs).map (fun x => x.1))
        ((tokens_kept_spec ps eot segs).map (fun x => x.2.text))
        ((tokens_kept_spec ps eot segs).map (fun x => x.2.p))
        ((tokens_kept_spec ps eot segs).map (fun x => to_timestamp x.2.t0 false))
        ((tokens_kept_spec ps eot segs).map (fun x => to_timestamp x.2.t1 false)) ∧
    tokens_table false (token_cols ps eot false segs) =
      TokenTable.noTs ((tokens_kept_spec ps eot segs).map (fun x => x.1))
        ((tokens_kept_spec ps eot segs).map (fun x => x.2.text))
        ((tokens_kept_spec ps eot segs).map (fun x => x.2.p)) ∧
    (∀ x ∈ tokens_kept_spec false eot segs, x.2.id < eot) ∧
    tokens_kept_spec true eot segs = tokens_all_from 0 segs := by
  refine ⟨?_, ?_, tokens_kept_from_mem eot 0 segs, tokens_kept_from_all eot 0 segs⟩
  · rw [tokens_table, if_pos rfl, token_cols, token_cols_go_spec]
    simp [TokenColumns.empty, tokens_kept_spec]
  · rw [tokens_table, if_neg (by simp), token_cols, token_cols_go_spec]
    simp [TokenColumns.empty, tokens_kept_spec]

/-- C3 witness: a segment with one ordinary and one special token yields,
with special-token printing off and timestamps off, a single-row table
without timestamp columns, and the kept row's id is below the sentinel. -/
theorem whisper_token_table_witness :
    tokens_table false (token_cols false 50256 false [segEx]) =
      TokenTable.noTs [1] ["hi"] [1/2] ∧ tokEx1.id < 50256 := by
  have h := whisper_token_table false 50256 [segEx]
  have hval : tokens_kept_spec false 50256 [segEx] = [(1, tokEx1)] := rfl
  refine ⟨?_, h.2.2.1 (1, tokEx1) (by rw [hval]; exact List.mem_singleton_self _)⟩
  rw [h.2.1]
  rfl

/-- Appending the same suffix to prefixes of different lengths yields
different strings. -/
theorem append_right_ne_of_length_ne (s1 s2 f : String)
    (h : s1.length ≠ s2.length) : s1 ++ f ≠ s2 ++ f := by
  intro hcontra
  have hlen := congrArg String.length hcontra
  rw [String.length_append, String.length_append] at hlen
  omega

/-- C10: the public entry point never enables diarization — the option
record it builds always has `diarize = false`, the stereo per-channel
buffers therefore stay empty, WAV validation can never fail with the
diarization-precondition message, and the per-segment speaker label is
always the empty string. -/
theorem diarize_never_enabled (hc : Int) (a : EncodeArgs) :
    (encode_params hc a).diarize = false ∧
    (∀ n pcm16, pcmf32s_of (encode_params hc a) n pcm16 = []) ∧
    (∀ wav fname, wav_validate (encode_params hc a) wav fname ≠
      Except.error
        ("WAV file must be stereo for diarization and timestamps have to be enabled: "
          ++ fname)) ∧
    (∀ pc t0 t1, segment_speaker (encode_params hc a).diarize pc t0 t1 = "") := by
  have hd : (encode_params hc a).diarize = false := rfl
  refine ⟨hd, ?_, ?_, ?_⟩
  · intro n pcm16
    rw [pcmf32s_of, hd]
    simp
  · intro wav fname hcontra
    match wav with
    | none =>
      rw [wav_validate] at hcontra
      simp only [Except.error.injEq] at hcontra
      exact append_right_ne_of_length_ne _ _ fname (by decide) hcontra
    | some w =>
      rw [wav_validate] at hcontra
      by_cases h1 : w.channels ≠ 1 ∧ w.channels ≠ 2
      · rw [if_pos h1] at hcontra
        simp only [Except.error.injEq] at hcontra
        exact append_right_ne_of_length_ne _ _ fname (by decide) hcontra
      · rw [if_neg h1, if_neg (by rw [hd]; simp)] at hcontra
        by_cases h2 : w.sampleRate ≠ WHISPER_SAMPLE_RATE
        · rw [if_pos h2] at hcontra
          simp only [Except.error.injEq] at hcontra
          exact append_right_ne_of_length_ne _ _ fname (by decide) hcontra
        · rw [if_neg h2] at hcontra
          by_cases h3 : w.bitsPerSample ≠ 16
          · rw [if_pos h3] at hcontra
            simp only [Except.error.injEq] at hcontra
            exact append_right_ne_of_length_ne _ _ fname (by decide) hcontra
          · rw [if_neg h3] at hcontra
            exact Except.noConfusion hcontra
  · intro pc t0 t1
    rw [hd, segment_speaker]
    simp

/-- C10 witness at concrete arguments: diarization off, stereo buffers
empty, the diarization-precondition error unreachable for a 3-channel
file, and an empty speaker label. -/
theorem diarize_never_enabled_witness :
    (encode_params 4 argsFr).diarize = false ∧
    pcmf32s_of (encode_params 4 argsFr) 2 [1, 2, 3, 4] = [] ∧
    wav_validate (encode_params 4 argsFr) (some wav3ch) "audio.wav" ≠
      Except.error
        ("WAV file must be stereo for diarization and timestamps have to be enabled: "
          ++ "audio.wav") ∧
    segment_speaker (encode_params 4 argsFr).diarize [[1], [1]] 0 5 = "" := by
  obtain ⟨h1, h2, h3, h4⟩ := diarize_never_enabled 4 argsFr
  exact ⟨h1, h2 2 [1, 2, 3, 4], h3 (some wav3ch) "audio.wav", h4 [[1], [1]] 0 5⟩

/-- C1: a WAV whose channel count is not 1 or 2, or whose sample rate is
not 16 kHz, or whose bit depth is not 16, makes `whisper_encode` stop
with a validation error naming the file; the result is the same fixed
error for every possible engine decode behaviour, so
`whisper_full_parallel` is never consulted. -/
theorem wav_validation_blocks_decode (eng : Engine) (hc : Int)
    (a : EncodeArgs) (w : drwav)
    (hlang : eng.lang_id a.language ≠ -1)
    (hbad : (w.channels ≠ 1 ∧ w.channels ≠ 2) ∨ w.sampleRate ≠ 16000 ∨
      w.bitsPerSample ≠ 16) :
    ∃ msg,
      (msg = "WAV file must be mono or stereo: " ++ a.path ∨
       msg = "WAV file must be 16 kHz: " ++ a.path ∨
       msg = "WAV file must be 16 bit: " ++ a.path) ∧
      ∀ fp res,
        whisper_encode { eng with full_parallel_ret := fp, result := res }
          hc a (some w) = Except.error msg := by
  have hd : (encode_params hc a).diarize = false := rfl
  have hgen : ∀ e : Engine, e.lang_id = eng.lang_id → ∀ msg,
      wav_validate (encode_params hc a) (some w) a.path = .error msg →
      whisper_encode e hc a (some w) = Except.error msg := by
    intro e helang msg hval
    rw [whisper_encode,
      if_neg (by simp [encode_params, whisper_params_default]),
      if_neg (by rw [helang]; exact hlang), hval]
  by_cases h1 : w.channels ≠ 1 ∧ w.channels ≠ 2
  · have hv : wav_validate (encode_params hc a) (some w) a.path =
        .error ("WAV file must be mono or stereo: " ++ a.path) := by
      rw [wav_validate, if_pos h1]
    exact ⟨_, Or.inl rfl, fun fp res =>
      hgen { eng with full_parallel_ret := fp, result := res } rfl _ hv⟩
  · by_cases h2 : w.sampleRate ≠ WHISPER_SAMPLE_RATE
    · have hv : wav_validate (encode_params hc a) (some w) a.path =
          .error ("WAV file must be 16 kHz: " ++ a.path) := by
        rw [wav_validate, if_neg h1, if_neg (by rw [hd]; simp), if_pos h2]
      exact ⟨_, Or.inr (Or.inl rfl), fun fp res =>
        hgen { eng with full_parallel_ret := fp, result := res } rfl _ hv⟩
    · have h3 : w.bitsPerSample ≠ 16 := by
        rcases hbad with hb | hb | hb
        · exact absurd hb h1
        · exact absurd hb h2
        · exact hb
      have hv : wav_validate (encode_params hc a) (some w) a.path =
          .error ("WAV file must be 16 bit: " ++ a.path) := by
        rw [wav_validate, if_neg h1, if_neg (by rw [hd]; simp), if_neg h2,
          if_pos h3]
      exact ⟨_, Or.inr (Or.inr rfl), fun fp res =>
        hgen { eng with full_parallel_ret := fp, result := res } rfl _ hv⟩

/-- C1 witness: a 3-channel WAV is rejected with the mono-or-stereo
message for every engine decode behaviour. -/
theorem wav_validation_blocks_decode_witness :
    engNM.lang_id argsFr.language ≠ -1 ∧
    ((wav3ch.channels ≠ 1 ∧ wav3ch.channels ≠ 2) ∨ wav3ch.sampleRate ≠ 16000 ∨
      wav3ch.bitsPerSample ≠ 16) ∧
    ∃ msg,
      (msg = "WAV file must be mono or stereo: " ++ argsFr.path ∨
       msg = "WAV file must be 16 kHz: " ++ argsFr.path ∨
       msg = "WAV file must be 16 bit: " ++ argsFr.path) ∧
      ∀ fp res,
        whisper_encode { engNM with full_parallel_ret := fp, result := res }
          4 argsFr (some wav3ch) = Except.error msg :=
  ⟨by decide, by decide,
    wav_validation_blocks_decode engNM 4 argsFr wav3ch (by decide) (by decide)⟩

/-- C2: when the model is not multilingual and the caller asked for a
non-default language or translation, the call warns and the returned
metadata reports language `"en"` with `translate = false`; otherwise the
caller's language and translate values are echoed unchanged and no
warning is emitted. -/
theorem whisper_encode_lang_fallback (eng : Engine) (hc : Int)
    (a : EncodeArgs) (wav : Option drwav) (out : EncodeOutput)
    (hok : whisper_encode eng hc a wav = Except.ok out) :
    ((eng.is_multilingual = false ∧ (a.language ≠ "en" ∨ a.translate = true)) →
      out.warned = true ∧ out.params_language = "en" ∧
        out.params_translate = false) ∧
    ((eng.is_multilingual = true ∨ (a.language = "en" ∧ a.translate = false)) →
      out.warned = false ∧ out.params_language = a.language ∧
        out.params_translate = a.translate) := by
  have hlang_eq : (encode_params hc a).language = a.language := rfl
  have htr_eq : (encode_params hc a).translate = a.translate := rfl
  rw [whisper_encode] at hok
  by_cases hempty : (encode_params hc a).fname_inp.isEmpty = true
  · rw [if_pos hempty] at hok
    exact Except.noConfusion hok
  · rw [if_neg hempty] at hok
    by_cases hl : eng.lang_id (encode_params hc a).language = -1
    · rw [if_pos hl] at hok
      exact Except.noConfusion hok
    · rw [if_neg hl] at hok
      cases hval : wav_validate (encode_params hc a) wav a.path with
      | error e =>
        rw [hval] at hok
        exact Except.noConfusion hok
      | ok w =>
        rw [hval] at hok
        rcases hadj : adjust_lang eng.is_multilingual (encode_params hc a) with
          ⟨params2, warned⟩
        rw [hadj] at hok
        dsimp only at hok
        by_cases hret : eng.full_parallel_ret
            (to_mono w.channels w.totalPCMFrameCount w.samples)
            (make_wparams eng.defaults params2 a.trace a.token_timestamps)
            params2.n_processors ≠ 0
        · rw [if_pos hret] at hok
          exact Except.noConfusion hok
        · rw [if_neg hret] at hok
          simp only [Except.ok.injEq] at hok
          subst hok
          constructor
          · intro hcond
            rw [adjust_lang, if_pos ⟨hcond.1, by
              rw [hlang_eq, htr_eq]; exact hcond.2⟩] at hadj
            simp only [Prod.mk.injEq] at hadj
            obtain ⟨hp, hw⟩ := hadj
            subst hp
            exact ⟨hw.symm, rfl, rfl⟩
          · intro hcond
            have hncond : ¬(eng.is_multilingual = false ∧
                ((encode_params hc a).language ≠ "en" ∨
                  (encode_params hc a).translate = true)) := by
              rintro ⟨hm, hor⟩
              rcases hcond with hmt | ⟨hen, htrf⟩
              · rw [hmt] at hm
                exact Bool.noConfusion hm
              · rw [hlang_eq, htr_eq] at hor
                rcases hor with hne | htt
                · exact hne hen
                · rw [htrf] at htt
                  exact Bool.noConfusion htt
            rw [adjust_lang, if_neg hncond] at hadj
            simp only [Prod.mk.injEq] at hadj
            obtain ⟨hp, hw⟩ := hadj
            subst hp
            exact ⟨hw.symm, hlang_eq, htr_eq⟩

/-- C2 witness: a concrete non-multilingual engine given language `"fr"`
succeeds, warns, and reports language `"en"` with translation off. -/
theorem whisper_encode_lang_fallback_witness :
    whisper_encode engNM 4 argsFr (some wavOK) = Except.ok outFr ∧
    outFr.warned = true ∧ outFr.params_language = "en" ∧
      outFr.params_translate = false := by
  have hok : whisper_encode engNM 4 argsFr (some wavOK) = Except.ok outFr := rfl
  exact ⟨hok,
    (whisper_encode_lang_fallback engNM 4 argsFr (some wavOK) outFr hok).1
      (by decide)⟩
